import Mathlib

/-!
Verification of the L3MON session/command/telemetry manager
(`src/includes/clientManager.js`, command-kind constants from
`src/includes/const.js`).

Shallow embedding conventions:
* JS objects with optional fields become structures with `Option` fields
  (`'f' in obj` becomes `o.f ≠ none`).
* The persistent store (`databaseGateway`) is not part of the sources;
  following the design document it is treated as a plain document store:
  reads return the current value, `push` appends, `find` returns the first
  match, `assign` on a found record patches that record, `assign` of a whole
  collection stores the new value, `remove()` with no predicate clears a
  collection.  Definitions relying on this carry a `Modelled from the spec:`
  note.
* `Math.random()` draws and `Date.now()` stamps are passed in as explicit
  arguments (an oracle), and the MD5 digest of `_createHash` is an abstract
  parameter `h : String → String`.
-/

/-- A command payload as handed to `sendCommand` / stored in `CommandQue`.
JS objects may or may not carry each field; `none` models an absent field.
`type` and `uid` are the fields the manager itself adds to the payload. -/
structure CommandPayload where
  action : Option String := none
  /-- the JS field is spelled `to`, a keyword here -/
  to_ : Option String := none
  sms : Option String := none
  path : Option String := none
  sec : Option Nat := none
  permission : Option String := none
  type : Option String := none
  uid : Option Nat := none
deriving Repr, DecidableEq

/-- The values of `CONST.messageKeys` (src/includes/const.js). -/
def messageKeys : List String :=
  ["0xCA", "0xFI", "0xCL", "0xSM", "0xMI", "0xLO", "0xCO",
   "0xWI", "0xNO", "0xCB", "0xIN", "0xPM", "0xGP"]

/-- `_validateSmsCommand` (clientManager.js lines 625-634). -/
def validateSmsCommand (payload : CommandPayload) : Option String :=
  match payload.action with
  | none => some "SMS Missing `action` Parameter"
  | some a =>
    if a = "ls" then none
    else if a = "sendSMS" then
      if payload.to_ = none then some "SMS Missing `to` Parameter"
      else if payload.sms = none then some "SMS Missing `sms` Parameter"
      else none
    else some "SMS `action` parameter incorrect"

/-- `_validateFilesCommand` (clientManager.js lines 636-643). -/
def validateFilesCommand (payload : CommandPayload) : Option String :=
  match payload.action with
  | none => some "Files Missing `action` Parameter"
  | some a =>
    if a = "ls" ∨ a = "dl" then
      if payload.path = none then some "Files Missing `path` Parameter"
      else none
    else some "Files `action` parameter incorrect"

/-- `_validateCommandParams` (clientManager.js lines 596-623); the validator
table keyed by `CONST.messageKeys.sms/files/mic/gotPermission`, then the
catalogue membership check. -/
def validateCommandParams (commandID : String) (payload : CommandPayload) :
    Option String :=
  if commandID = "0xSM" then validateSmsCommand payload
  else if commandID = "0xFI" then validateFilesCommand payload
  else if commandID = "0xMI" then
    if payload.sec = none then some "Mic Missing `sec` Parameter" else none
  else if commandID = "0xGP" then
    if payload.permission = none then some "GotPerm Missing `permission` Parameter"
    else none
  else if commandID ∈ messageKeys then none
  else some "Command ID Not Found"

/-- The result handed to `sendCommand`'s callback: `cb(error, message)`. -/
inductive SendResult where
  | err : String → SendResult
  | ok : String → SendResult
deriving Repr, DecidableEq

/-- The slice of manager state that command dispatch touches, for one agent:
whether the agent record exists in `maindb`, whether `clientConnections` has a
live socket for it, the agent's `CommandQue`, and a transcript of the
payloads pushed through `socket.emit('order', …)`. -/
structure CmdState where
  clientExists : Bool
  connected : Bool
  queue : List CommandPayload
  sentLog : List CommandPayload
deriving Repr, DecidableEq

/-- `_queueCommand` (clientManager.js lines 578-590): reject when a command of
the same `type` is already pending, otherwise stamp the random `uid` draw and
append.  The `uid` draw (`Math.floor(Math.random() * 100000)`) is the explicit
argument `uid`. -/
def queueCommand (q : List CommandPayload) (payload : CommandPayload)
    (uid : Nat) : Option String × List CommandPayload :=
  let existingTypes := q.map (·.type)
  if payload.type ∈ existingTypes then
    (some "A similar command has already been queued", q)
  else (none, q ++ [{ payload with uid := some uid }])

/-- `sendCommand` (clientManager.js lines 543-572): validate, check the agent
record, tag the payload with its `type`, then either emit on the live socket
or queue for the offline agent.  (The JS string for a missing agent record is
spelled with an apostrophe; it is reworded here, nothing depends on it.) -/
def sendCommand (st : CmdState) (commandID : String) (payload : CommandPayload)
    (uid : Nat) : SendResult × CmdState :=
  match validateCommandParams commandID payload with
  | some e => (SendResult.err e, st)
  | none =>
    if st.clientExists then
      let tagged := { payload with type := some commandID }
      if st.connected then
        (SendResult.ok "Requested", { st with sentLog := st.sentLog ++ [tagged] })
      else
        match queueCommand st.queue tagged uid with
        | (some e, _) => (SendResult.err e, st)
        | (none, q) =>
          (SendResult.ok "Command queued (device is offline)", { st with queue := q })
    else (SendResult.err "Client not in database!", st)

/-- The spec's invalidity condition for an sms command, written from the
claim's words (to be compared with `validateSmsCommand`): `action` missing, or
any value other than `"ls"`/`"sendSMS"`, or `"sendSMS"` with `to` or `sms`
missing. -/
def specSmsInvalid (payload : CommandPayload) : Prop :=
  payload.action = none ∨
  (∃ a, payload.action = some a ∧ a ≠ "ls" ∧ a ≠ "sendSMS") ∨
  (payload.action = some "sendSMS" ∧ (payload.to_ = none ∨ payload.sms = none))

/-- The spec's invalidity condition for a files command, written from the
claim's words: `action` missing, or not one of `"ls"`/`"dl"`, or `path`
missing. -/
def specFilesInvalid (payload : CommandPayload) : Prop :=
  payload.action = none ∨
  (∃ a, payload.action = some a ∧ a ≠ "ls" ∧ a ≠ "dl") ∨
  payload.path = none

/-- C1: for kind sms (`0xSM`) the payloads the claim calls invalid are exactly
those `_validateSmsCommand` rejects, and on rejection `sendCommand` returns
the validation error with the state untouched (nothing transmitted or
enqueued); the same for kind files (`0xFI`) and `_validateFilesCommand`; all
remaining payloads of these two kinds pass validation. -/
theorem c1_sms_files_validation (st : CmdState) (payload : CommandPayload)
    (uid : Nat) :
    (specSmsInvalid payload ↔ validateSmsCommand payload ≠ none) ∧
    (∀ m, validateSmsCommand payload = some m →
      sendCommand st "0xSM" payload uid = (SendResult.err m, st)) ∧
    (specFilesInvalid payload ↔ validateFilesCommand payload ≠ none) ∧
    (∀ m, validateFilesCommand payload = some m →
      sendCommand st "0xFI" payload uid = (SendResult.err m, st)) := by
  refine ⟨?_, ?_, ?_, ?_⟩
  · unfold specSmsInvalid validateSmsCommand
    cases hact : payload.action with
    | none => simp
    | some a =>
      by_cases hls : a = "ls"
      · simp [hls]
      · by_cases hssms : a = "sendSMS"
        · subst hssms
          by_cases hto : payload.to_ = none
          · simp [hls, hto]
          · by_cases hsms : payload.sms = none <;> simp [hls, hto, hsms]
        · simp [hls, hssms]
  · intro m hm
    simp [sendCommand, validateCommandParams, hm]
  · unfold specFilesInvalid validateFilesCommand
    cases hact : payload.action with
    | none => simp
    | some a =>
      by_cases hls : a = "ls"
      · by_cases hpath : payload.path = none <;> simp [hls, hpath]
      · by_cases hdl : a = "dl"
        · by_cases hpath : payload.path = none <;> simp [hls, hdl, hpath]
        · simp [hls, hdl]
  · intro m hm
    simp [sendCommand, validateCommandParams, hm]

def c1SamplePayload : CommandPayload := { action := some "bogus" }

theorem c1_witness :
    sendCommand ⟨true, true, [], []⟩ "0xSM" c1SamplePayload 0 =
      (SendResult.err "SMS `action` parameter incorrect", ⟨true, true, [], []⟩) ∧
    sendCommand ⟨true, true, [], []⟩ "0xFI" c1SamplePayload 0 =
      (SendResult.err "Files `action` parameter incorrect", ⟨true, true, [], []⟩) :=
  ⟨(c1_sms_files_validation ⟨true, true, [], []⟩ c1SamplePayload 0).2.1 _ rfl,
   (c1_sms_files_validation ⟨true, true, [], []⟩ c1SamplePayload 0).2.2.2 _ rfl⟩

/-- C2: for an agent with an existing record but no live connection, and a
kind that passes validation: if an entry of that kind is already pending,
`sendCommand` returns the duplicate-pending error and leaves the whole state
(in particular the queue) unchanged; if not, it appends exactly the tagged
payload stamped with the fresh `uid` draw and reports the command queued. -/
theorem c2_queue_dedupe (st : CmdState) (kind : String)
    (payload : CommandPayload) (uid : Nat)
    (hval : validateCommandParams kind payload = none)
    (hex : st.clientExists = true) (hconn : st.connected = false) :
    (some kind ∈ st.queue.map (·.type) →
      sendCommand st kind payload uid =
        (SendResult.err "A similar command has already been queued", st)) ∧
    (some kind ∉ st.queue.map (·.type) →
      sendCommand st kind payload uid =
        (SendResult.ok "Command queued (device is offline)",
          { st with queue :=
              st.queue ++ [{ payload with type := some kind, uid := some uid }] })) := by
  constructor
  · intro hmem
    simp [sendCommand, hval, hex, hconn, queueCommand, hmem]
  · intro hmem
    simp [sendCommand, hval, hex, hconn, queueCommand, hmem]

def c2SampleState : CmdState :=
  { clientExists := true, connected := false,
    queue := [{ type := some "0xCA", uid := some 3 }], sentLog := [] }

theorem c2_witness :
    sendCommand c2SampleState "0xCA" {} 7 =
      (SendResult.err "A similar command has already been queued", c2SampleState) ∧
    sendCommand c2SampleState "0xWI" {} 7 =
      (SendResult.ok "Command queued (device is offline)",
        { c2SampleState with queue :=
            c2SampleState.queue ++ [{ type := some "0xWI", uid := some 7 }] }) :=
  ⟨(c2_queue_dedupe c2SampleState "0xCA" {} 7 rfl rfl rfl).1 (by decide),
   (c2_queue_dedupe c2SampleState "0xWI" {} 7 rfl rfl rfl).2 (by decide)⟩

/-- One pass of the `clientQueue.forEach` body of `_processCommandQueue`
(clientManager.js lines 164-173): re-send the stored entry with its stored
kind (`command.type`) and payload (the entry itself); on success remove every
queue entry carrying the entry's `uid` (`remove({uid})`), on failure leave the
queue alone.  The fresh-uid draw of a hypothetical re-queue is passed as `0`:
while the entry is still pending, `queueCommand` rejects it as a duplicate
before any draw is used. -/
def replayStep (st : CmdState) (command : CommandPayload) : CmdState :=
  let r := sendCommand st (command.type.getD "") command 0
  match r.1 with
  | SendResult.ok _ =>
    { r.2 with queue := r.2.queue.filter (fun c => !(c.uid == command.uid)) }
  | SendResult.err _ => r.2

/-- The `forEach` of `_processCommandQueue` over a fixed list of entries. -/
def replayLoop (st : CmdState) (entries : List CommandPayload) : CmdState :=
  entries.foldl replayStep st

/-- `_processCommandQueue` (clientManager.js lines 157-174).  Modelled from
the spec: the store read `client.get('CommandQue').value()` returns the
current queue value, so the loop iterates over the queue as read at entry. -/
def processCommandQueue (st : CmdState) : CmdState :=
  let clientQueue := st.queue
  if clientQueue.isEmpty then st else replayLoop st clientQueue

/-- A queued entry is replayable when its stored kind re-passes validation and
it carries the `type` tag `sendCommand` gave it at enqueue time. -/
def replayable (e : CommandPayload) : Prop :=
  validateCommandParams (e.type.getD "") e = none ∧ e.type ≠ none

theorem tagged_self {e : CommandPayload} {k : String} (h : e.type = some k) :
    { e with type := some k } = e := by
  cases e
  simp_all

theorem replayStep_ok {st : CmdState} {e : CommandPayload}
    (hc : st.connected = true) (he : st.clientExists = true)
    (hr : replayable e) :
    replayStep st e =
      { st with sentLog := st.sentLog ++ [e],
                queue := st.queue.filter (fun c => !(c.uid == e.uid)) } := by
  obtain ⟨hval, htype⟩ := hr
  obtain ⟨k, hk⟩ := Option.ne_none_iff_exists'.mp htype
  rw [hk] at hval
  simp only [Option.getD_some] at hval
  simp only [replayStep, sendCommand, hk, Option.getD_some, hval, he, hc,
    if_true, tagged_self hk]

theorem replayLoop_sends_all (entries : List CommandPayload) (st : CmdState)
    (hc : st.connected = true) (he : st.clientExists = true)
    (hall : ∀ e ∈ entries, replayable e) :
    (replayLoop st entries).queue =
        st.queue.filter (fun c => entries.all (fun e => !(c.uid == e.uid))) ∧
      (replayLoop st entries).sentLog = st.sentLog ++ entries ∧
      (replayLoop st entries).connected = true ∧
      (replayLoop st entries).clientExists = true := by
  induction entries generalizing st with
  | nil =>
    simp [replayLoop, hc, he]
  | cons e tl ih =>
    have hstep := replayStep_ok hc he (hall e (by simp))
    have hrest := ih
      { st with sentLog := st.sentLog ++ [e],
                queue := st.queue.filter (fun c => !(c.uid == e.uid)) }
      hc he (fun x hx => hall x (by simp [hx]))
    simp only [replayLoop, List.foldl_cons, hstep] at hrest ⊢
    refine ⟨?_, ?_, hrest.2.2⟩
    · rw [hrest.1, List.filter_filter]
      apply List.filter_congr
      intro c _
      simp [Bool.and_comm]
    · rw [hrest.2.1, List.append_assoc]
      rfl

theorem self_uid_filter (l : List CommandPayload) :
    l.filter (fun c => l.all (fun e => !(c.uid == e.uid))) = [] := by
  rw [List.filter_eq_nil_iff]
  intro c hc
  simp only [List.all_eq_true, Bool.not_eq_true']
  intro hforall
  have := hforall c hc
  simp at this

/-- C5: when the agent is connected and its record exists, replaying a queue
whose entries are all replayable transmits every entry, in insertion order,
and leaves the queue empty (each successful send removes its entry). -/
theorem c5_reconnect_replay (st : CmdState)
    (hc : st.connected = true) (he : st.clientExists = true)
    (hall : ∀ e ∈ st.queue, replayable e) :
    (processCommandQueue st).queue = [] ∧
      (processCommandQueue st).sentLog = st.sentLog ++ st.queue := by
  by_cases hq : st.queue.isEmpty
  · rw [List.isEmpty_iff] at hq
    simp [processCommandQueue, hq]
  · have h := replayLoop_sends_all st.queue st hc he hall
    simp only [processCommandQueue, hq, if_false, Bool.false_eq_true]
    exact ⟨h.1.trans (self_uid_filter st.queue), h.2.1⟩

def c5SampleState : CmdState :=
  { clientExists := true, connected := true,
    queue := [{ type := some "0xCA", uid := some 11 },
              { type := some "0xSM", action := some "ls", uid := some 12 }],
    sentLog := [] }

theorem c5_witness :
    (processCommandQueue c5SampleState).queue = [] ∧
      (processCommandQueue c5SampleState).sentLog =
        c5SampleState.sentLog ++ c5SampleState.queue :=
  c5_reconnect_replay c5SampleState rfl rfl
    (by intro e he; fin_cases he <;> exact ⟨rfl, by decide⟩)

def c9Start : CmdState :=
  { clientExists := true, connected := false, queue := [], sentLog := [] }

/-- C9 counterexample: `_queueCommand` never checks the random `uid` draw
against the uids already pending.  Enqueueing two commands of different kinds
while both random draws come out as `7` is a reachable queue state whose two
entries share a uid, refuting pairwise distinctness. -/
theorem c9_counterexample :
    ¬ ((sendCommand (sendCommand c9Start "0xCA" {} 7).2 "0xWI" {} 7).2.queue.Pairwise
        (fun a b => a.uid ≠ b.uid)) := by
  decide

theorem queueCommand_cases (q : List CommandPayload) (payload : CommandPayload)
    (uid : Nat) :
    queueCommand q payload uid =
        (some "A similar command has already been queued", q) ∨
      queueCommand q payload uid =
        (none, q ++ [{ payload with uid := some uid }]) := by
  by_cases hmem : payload.type ∈ q.map (·.type)
  · left
    simp [queueCommand, hmem]
  · right
    simp [queueCommand, hmem]

theorem sendCommand_queue_cases (st : CmdState) (kind : String)
    (payload : CommandPayload) (uid : Nat) :
    ((sendCommand st kind payload uid).2.queue = st.queue ∧
        (sendCommand st kind payload uid).2.connected = st.connected) ∨
      (sendCommand st kind payload uid).2.queue =
        st.queue ++ [{ payload with type := some kind, uid := some uid }] := by
  unfold sendCommand
  cases hv : validateCommandParams kind payload with
  | some m => exact Or.inl ⟨rfl, rfl⟩
  | none =>
    cases hex : st.clientExists with
    | false => simp
    | true =>
      cases hcn : st.connected with
      | true => simp
      | false =>
        rcases queueCommand_cases st.queue { payload with type := some kind } uid
          with h | h <;> simp [h, hcn]

theorem sendCommand_connected_state (st : CmdState) (kind : String)
    (payload : CommandPayload) (uid : Nat) (hc : st.connected = true) :
    (sendCommand st kind payload uid).2.queue = st.queue ∧
      (sendCommand st kind payload uid).2.connected = true := by
  unfold sendCommand
  cases hv : validateCommandParams kind payload with
  | some m => exact ⟨rfl, hc⟩
  | none =>
    cases hex : st.clientExists with
    | false => simp [hc]
    | true => simp [hc]

theorem replayStep_queue_sublist (st : CmdState) (e : CommandPayload)
    (hc : st.connected = true) :
    (replayStep st e).queue.Sublist st.queue ∧
      (replayStep st e).connected = true := by
  have h := sendCommand_connected_state st (e.type.getD "") e 0 hc
  unfold replayStep
  rcases hr : sendCommand st (e.type.getD "") e 0 with ⟨r, st2⟩
  rw [hr] at h
  have h1 : st2.queue = st.queue := h.1
  have h2 : st2.connected = true := h.2
  cases r with
  | err m =>
    refine ⟨?_, h2⟩
    show st2.queue.Sublist st.queue
    rw [h1]
  | ok m =>
    refine ⟨?_, h2⟩
    show (st2.queue.filter (fun c => !(c.uid == e.uid))).Sublist st.queue
    rw [h1]
    exact List.filter_sublist st.queue

theorem replayLoop_pairwise (entries : List CommandPayload) (st : CmdState)
    (hc : st.connected = true)
    (hP : st.queue.Pairwise (fun a b => a.uid ≠ b.uid)) :
    ((replayLoop st entries).queue).Pairwise (fun a b => a.uid ≠ b.uid) := by
  induction entries generalizing st with
  | nil => exact hP
  | cons e tl ih =>
    have hs := replayStep_queue_sublist st e hc
    exact ih (replayStep st e) hs.2 (hP.sublist hs.1)

/-- C9 amended: uid distinctness is not enforced by the code; it holds only
conditionally on the random draws.  If a queue's uids are pairwise distinct,
then an enqueue whose fresh draw differs from every pending uid preserves
distinctness, and a connect-time replay (which only removes or keeps entries)
preserves it as well. -/
theorem c9_uid_amended (st : CmdState) (kind : String)
    (payload : CommandPayload) (uid : Nat)
    (hP : st.queue.Pairwise (fun a b => a.uid ≠ b.uid)) :
    (some uid ∉ st.queue.map (·.uid) →
      ((sendCommand st kind payload uid).2.queue).Pairwise
        (fun a b => a.uid ≠ b.uid)) ∧
    (st.connected = true →
      ((processCommandQueue st).queue).Pairwise (fun a b => a.uid ≠ b.uid)) := by
  constructor
  · intro hu
    rcases sendCommand_queue_cases st kind payload uid with h | h
    · rw [h.1]; exact hP
    · rw [h, List.pairwise_append]
      refine ⟨hP, List.pairwise_singleton _ _, ?_⟩
      intro a ha b hb
      simp only [List.mem_singleton] at hb
      subst hb
      intro hcontra
      have hcontra2 : a.uid = some uid := hcontra
      have hmem2 : a.uid ∈ st.queue.map (·.uid) :=
        List.mem_map_of_mem (fun c : CommandPayload => c.uid) ha
      rw [hcontra2] at hmem2
      exact hu hmem2
  · intro hcn
    unfold processCommandQueue
    by_cases hq : st.queue.isEmpty
    · simp only [hq, if_true]
      exact hP
    · simp only [hq, if_false]
      exact replayLoop_pairwise st.queue st hcn hP

theorem c9_witness :
    ((sendCommand c2SampleState "0xWI" {} 7).2.queue).Pairwise
      (fun a b => a.uid ≠ b.uid) :=
  (c9_uid_amended c2SampleState "0xWI" {} 7 (by decide)).1 (by decide)

/-- A stored log record: the incoming record tagged with its dedupe hash
(`record.hash = hash; db.push(record)`). -/
structure LogRec (α : Type) where
  data : α
  hash : String
deriving Repr, DecidableEq

/-- The shared per-record body of the log-append handlers
(`_setupCallHandler` / `_setupSmsHandler` / `_setupContactsHandler`): compute
the MD5 key (`h` abstracts `_createHash`, `key` the concatenated identity
fields), skip when `find({hash})` hits, otherwise tag and push, counting the
record as new. -/
def dedupStep {α : Type} (h : String → String) (key : α → String)
    (acc : List (LogRec α) × Nat) (c : α) : List (LogRec α) × Nat :=
  let hv := h (key c)
  if acc.1.any (fun r => r.hash == hv) then acc
  else (acc.1 ++ [⟨c, hv⟩], acc.2 + 1)

/-- The `forEach` over an incoming batch, starting from `newCount = 0`. -/
def dedupIngest {α : Type} (h : String → String) (key : α → String)
    (log : List (LogRec α)) (data : List α) : List (LogRec α) × Nat :=
  data.foldl (dedupStep h key) (log, 0)

/-- An incoming call record; identity fields of `_setupCallHandler`
(clientManager.js lines 224-246), key `phoneNo + date`. -/
structure CallIn where
  phoneNo : String
  date : String
deriving Repr, DecidableEq

/-- An incoming SMS record; identity fields of `_setupSmsHandler`
(clientManager.js lines 248-272), key `address + body`. -/
structure SmsIn where
  address : String
  body : String
deriving Repr, DecidableEq

/-- An incoming contact; identity fields of `_setupContactsHandler`
(clientManager.js lines 358-382), key `phoneNo + name` after whitespace is
stripped from `phoneNo`. -/
structure ContactIn where
  phoneNo : String
  name : String
deriving Repr, DecidableEq

/-- An incoming notification; identity fields of `_setupNotificationHandler`
(clientManager.js lines 341-356), key `key + content`. -/
structure NotifIn where
  key : String
  content : String
deriving Repr, DecidableEq

/-- `contact.phoneNo.replace(/\s+/g, '')`: drop every whitespace character. -/
def stripWs (s : String) : String := ⟨s.data.filter (fun c => !c.isWhitespace)⟩

/-- `_setupCallHandler`: bail out on a missing or empty `callsList` (a missing
list is modelled as the empty one), else dedupe-append each call. -/
def setupCallHandler (h : String → String) (log : List (LogRec CallIn))
    (callsList : List CallIn) : List (LogRec CallIn) × Nat :=
  if callsList.isEmpty then (log, 0)
  else dedupIngest h (fun c => c.phoneNo ++ c.date) log callsList

/-- `_setupSmsHandler`, list branch (`data.smslist` present): dedupe-append
each sms.  (The boolean branch only logs and is not modelled.) -/
def setupSmsHandler (h : String → String) (log : List (LogRec SmsIn))
    (smslist : List SmsIn) : List (LogRec SmsIn) × Nat :=
  dedupIngest h (fun s => s.address ++ s.body) log smslist

/-- `_setupContactsHandler`: bail out on a missing or empty list, else strip
whitespace from each `phoneNo` and dedupe-append. -/
def setupContactsHandler (h : String → String) (log : List (LogRec ContactIn))
    (contactsList : List ContactIn) : List (LogRec ContactIn) × Nat :=
  if contactsList.isEmpty then (log, 0)
  else dedupIngest h (fun c => c.phoneNo ++ c.name) log
    (contactsList.map (fun c => { c with phoneNo := stripWs c.phoneNo }))

/-- `_setupNotificationHandler`: one record per message; skip when the
`key + content` hash is already logged, else tag and push. -/
def setupNotificationHandler (h : String → String)
    (log : List (LogRec NotifIn)) (d : NotifIn) : List (LogRec NotifIn) :=
  let hv := h (d.key ++ d.content)
  if log.any (fun r => r.hash == hv) then log else log ++ [⟨d, hv⟩]

theorem dedupStep_found {α : Type} (h : String → String) (key : α → String)
    (acc : List (LogRec α) × Nat) (c : α)
    (hf : acc.1.any (fun r => r.hash == h (key c)) = true) :
    dedupStep h key acc c = acc := by
  simp [dedupStep, hf]

theorem dedupStep_fresh {α : Type} (h : String → String) (key : α → String)
    (acc : List (LogRec α) × Nat) (c : α)
    (hf : acc.1.any (fun r => r.hash == h (key c)) = false) :
    dedupStep h key acc c = (acc.1 ++ [⟨c, h (key c)⟩], acc.2 + 1) := by
  simp [dedupStep, hf]

theorem dedupFold_extends {α : Type} (h : String → String) (key : α → String)
    (data : List α) :
    ∀ acc : List (LogRec α) × Nat,
      ∃ ext, (data.foldl (dedupStep h key) acc).1 = acc.1 ++ ext := by
  induction data with
  | nil => exact fun acc => ⟨[], (List.append_nil acc.1).symm⟩
  | cons c tl ih =>
    intro acc
    rw [List.foldl_cons]
    by_cases hf : acc.1.any (fun r => r.hash == h (key c)) = true
    · rw [dedupStep_found h key acc c hf]
      exact ih acc
    · rw [Bool.not_eq_true] at hf
      rw [dedupStep_fresh h key acc c hf]
      obtain ⟨ext, hext⟩ := ih (acc.1 ++ [⟨c, h (key c)⟩], acc.2 + 1)
      exact ⟨⟨c, h (key c)⟩ :: ext, by rw [hext, List.append_assoc]; rfl⟩

theorem dedupFold_any_mono {α : Type} (h : String → String) (key : α → String)
    (data : List α) (acc : List (LogRec α) × Nat) (p : LogRec α → Bool)
    (hp : acc.1.any p = true) :
    ((data.foldl (dedupStep h key) acc).1).any p = true := by
  obtain ⟨ext, hext⟩ := dedupFold_extends h key data acc
  rw [hext, List.any_append, hp, Bool.true_or]

theorem dedupFold_mem_key {α : Type} (h : String → String) (key : α → String)
    (data : List α) :
    ∀ acc : List (LogRec α) × Nat, ∀ c ∈ data,
      ((data.foldl (dedupStep h key) acc).1).any
        (fun r => r.hash == h (key c)) = true := by
  induction data with
  | nil => intro acc c hc; cases hc
  | cons c' tl ih =>
    intro acc c hc
    rw [List.foldl_cons]
    rcases List.mem_cons.mp hc with hceq | hctl
    · subst hceq
      by_cases hf : acc.1.any (fun r => r.hash == h (key c)) = true
      · rw [dedupStep_found h key acc c hf]
        exact dedupFold_any_mono h key tl acc _ hf
      · rw [Bool.not_eq_true] at hf
        rw [dedupStep_fresh h key acc c hf]
        refine dedupFold_any_mono h key tl _ _ ?_
        simp [List.any_append]
    · exact ih (dedupStep h key acc c') c hctl

theorem dedupFold_noop {α : Type} (h : String → String) (key : α → String)
    (data : List α) (log : List (LogRec α)) (n : Nat)
    (hall : ∀ c ∈ data, log.any (fun r => r.hash == h (key c)) = true) :
    data.foldl (dedupStep h key) (log, n) = (log, n) := by
  induction data with
  | nil => rfl
  | cons c tl ih =>
    rw [List.foldl_cons]
    rw [dedupStep_found h key (log, n) c (hall c (by simp))]
    exact ih (fun x hx => hall x (by simp [hx]))

theorem dedupIngest_idem {α : Type} (h : String → String) (key : α → String)
    (log : List (LogRec α)) (data : List α) :
    dedupIngest h key (dedupIngest h key log data).1 data =
      ((dedupIngest h key log data).1, 0) := by
  apply dedupFold_noop
  intro c hc
  exact dedupFold_mem_key h key data (log, 0) c hc

theorem dedupIngest_replicate {α : Type} (h : String → String)
    (key : α → String) (N : Nat) (hN : 1 ≤ N) (c : α) (log : List (LogRec α))
    (hc : log.any (fun r => r.hash == h (key c)) = false) :
    dedupIngest h key log (List.replicate N c) = (log ++ [⟨c, h (key c)⟩], 1) := by
  obtain ⟨m, rfl⟩ : ∃ m, N = m + 1 :=
    ⟨N - 1, (Nat.succ_pred_eq_of_pos hN).symm⟩
  rw [List.replicate_succ]
  unfold dedupIngest
  rw [List.foldl_cons, dedupStep_fresh h key (log, 0) c hc]
  apply dedupFold_noop
  intro x hx
  rw [List.eq_of_mem_replicate hx]
  simp [List.any_append]

theorem countP_eq_zero_of_any_false {α : Type} (l : List (LogRec α))
    (p : LogRec α → Bool) (hl : l.any p = false) :
    l.countP p = 0 := by
  rw [List.countP_eq_zero]
  intro a ha hpa
  rw [List.any_eq_false] at hl
  exact hl a ha hpa

theorem notif_found {h : String → String} {log : List (LogRec NotifIn)}
    {d : NotifIn}
    (hf : log.any (fun r => r.hash == h (d.key ++ d.content)) = true) :
    setupNotificationHandler h log d = log := by
  simp [setupNotificationHandler, hf]

theorem notif_iterate_noop (h : String → String) (d : NotifIn) (m : Nat) :
    ∀ log : List (LogRec NotifIn),
      log.any (fun r => r.hash == h (d.key ++ d.content)) = true →
      Nat.iterate (fun log => setupNotificationHandler h log d) m log = log := by
  induction m with
  | zero => intro log _; rfl
  | succ k ih =>
    intro log hf
    rw [Function.iterate_succ_apply, notif_found hf]
    exact ih log hf

/-- C3: for each log-append kind — call, SMS, contact, notification — feeding
the same record `N ≥ 1` times into a log not yet holding its dedupe key
stores exactly one tagged copy of it (new-record count 1, so the `N - 1`
repeats are skipped), and re-running any ingestion with the same batch leaves
the stored log unchanged with a new-record count of 0. -/
theorem c3_dedupe_idempotence (h : String → String) (N : Nat) (hN : 1 ≤ N)
    (clog : List (LogRec CallIn)) (c : CallIn)
    (hc : clog.any (fun r => r.hash == h (c.phoneNo ++ c.date)) = false)
    (slog : List (LogRec SmsIn)) (s : SmsIn)
    (hs : slog.any (fun r => r.hash == h (s.address ++ s.body)) = false)
    (klog : List (LogRec ContactIn)) (k : ContactIn)
    (hk : klog.any
      (fun r => r.hash == h (stripWs k.phoneNo ++ k.name)) = false)
    (nlog : List (LogRec NotifIn)) (d : NotifIn)
    (hd : nlog.any (fun r => r.hash == h (d.key ++ d.content)) = false)
    (cbatch : List CallIn) (sbatch : List SmsIn) (kbatch : List ContactIn) :
    setupCallHandler h clog (List.replicate N c) =
        (clog ++ [⟨c, h (c.phoneNo ++ c.date)⟩], 1) ∧
      (setupCallHandler h clog (List.replicate N c)).1.countP
        (fun r => r.hash == h (c.phoneNo ++ c.date)) = 1 ∧
      setupSmsHandler h slog (List.replicate N s) =
        (slog ++ [⟨s, h (s.address ++ s.body)⟩], 1) ∧
      setupContactsHandler h klog (List.replicate N k) =
        (klog ++ [⟨{ k with phoneNo := stripWs k.phoneNo },
                   h (stripWs k.phoneNo ++ k.name)⟩], 1) ∧
      Nat.iterate (fun log => setupNotificationHandler h log d) N nlog =
        nlog ++ [⟨d, h (d.key ++ d.content)⟩] ∧
      setupCallHandler h (setupCallHandler h clog cbatch).1 cbatch =
        ((setupCallHandler h clog cbatch).1, 0) ∧
      setupSmsHandler h (setupSmsHandler h slog sbatch).1 sbatch =
        ((setupSmsHandler h slog sbatch).1, 0) ∧
      setupContactsHandler h (setupContactsHandler h klog kbatch).1 kbatch =
        ((setupContactsHandler h klog kbatch).1, 0) ∧
      setupNotificationHandler h (setupNotificationHandler h nlog d) d =
        setupNotificationHandler h nlog d := by
  obtain ⟨m, rfl⟩ : ∃ m, N = m + 1 :=
    ⟨N - 1, (Nat.succ_pred_eq_of_pos hN).symm⟩
  have hrepl : ∀ (n : Nat), (List.replicate (m + 1) c).isEmpty = false := by
    intro _; rw [List.replicate_succ]; rfl
  refine ⟨?_, ?_, ?_, ?_, ?_, ?_, ?_, ?_, ?_⟩
  · rw [setupCallHandler, hrepl 0, if_neg (by simp)]
    exact dedupIngest_replicate h _ (m + 1) hN c clog hc
  · rw [setupCallHandler, hrepl 0, if_neg (by simp)]
    rw [dedupIngest_replicate h _ (m + 1) hN c clog hc]
    rw [List.countP_append, countP_eq_zero_of_any_false clog _ hc]
    simp [List.countP_cons]
  · exact dedupIngest_replicate h _ (m + 1) hN s slog hs
  · rw [setupContactsHandler, if_neg (by simp [List.replicate_succ])]
    rw [List.map_replicate]
    exact dedupIngest_replicate h _ (m + 1) hN _ klog hk
  · rw [Function.iterate_succ_apply]
    have hfirst : setupNotificationHandler h nlog d =
        nlog ++ [⟨d, h (d.key ++ d.content)⟩] := by
      simp [setupNotificationHandler, hd]
    rw [hfirst]
    apply notif_iterate_noop
    simp [List.any_append]
  · by_cases hb : cbatch.isEmpty
    · simp [setupCallHandler, hb]
    · simp only [setupCallHandler, hb, if_false]
      exact dedupIngest_idem h _ clog cbatch
  · exact dedupIngest_idem h _ slog sbatch
  · by_cases hb : kbatch.isEmpty
    · simp [setupContactsHandler, hb]
    · simp only [setupContactsHandler, hb, if_false]
      exact dedupIngest_idem h _ klog _
  · by_cases hf : nlog.any (fun r => r.hash == h (d.key ++ d.content)) = true
    · rw [notif_found hf, notif_found hf]
    · rw [Bool.not_eq_true] at hf
      have hfirst : setupNotificationHandler h nlog d =
          nlog ++ [⟨d, h (d.key ++ d.content)⟩] := by
        simp [setupNotificationHandler, hf]
      rw [hfirst]
      apply notif_found
      simp [List.any_append]

theorem c3_witness :
    setupCallHandler (fun s => s) [] (List.replicate 2 (CallIn.mk "p" "d")) =
        ([] ++ [LogRec.mk (CallIn.mk "p" "d") ((fun s : String => s) ("p" ++ "d"))], 1) ∧
      setupNotificationHandler (fun s => s)
          (setupNotificationHandler (fun s => s) [] (NotifIn.mk "k" "x"))
          (NotifIn.mk "k" "x") =
        setupNotificationHandler (fun s => s) [] (NotifIn.mk "k" "x") :=
  have h := c3_dedupe_idempotence (fun s => s) 2 (by decide)
    [] (CallIn.mk "p" "d") rfl
    [] (SmsIn.mk "a" "b") rfl
    [] (ContactIn.mk "q" "n") rfl
    [] (NotifIn.mk "k" "x") rfl
    [CallIn.mk "p" "d"] [SmsIn.mk "a" "b"] [ContactIn.mk "q" "n"]
  ⟨h.1, h.2.2.2.2.2.2.2.2⟩

/-- An incoming wifi network, identified by its natural key (SSID, BSSID). -/
structure WifiNet where
  SSID : String
  BSSID : String
deriving Repr, DecidableEq

/-- A `wifiLog` entry: the network plus the `firstSeen`/`lastSeen` stamps the
handler adds (stamps as abstract instants). -/
structure WifiLogEntry where
  SSID : String
  BSSID : String
  firstSeen : Nat
  lastSeen : Nat
deriving Repr, DecidableEq

/-- `dbwifiLog.find({SSID, BSSID})` match predicate. -/
def wifiMatches (w : WifiNet) (e : WifiLogEntry) : Bool :=
  e.SSID == w.SSID && e.BSSID == w.BSSID

/-- Patch the first record a store `find` would return.  Modelled from the
spec: `find(predicate)` returns the first matching document and `assign`
patches it in place. -/
def updateFirst {α : Type} (p : α → Bool) (f : α → α) : List α → List α
  | [] => []
  | x :: xs => if p x then f x :: xs else x :: updateFirst p f xs

/-- The agent's wifi state: the `wifiNow` current-scan snapshot and the
`wifiLog` history. -/
structure WifiState where
  wifiNow : List WifiNet
  wifiLog : List WifiLogEntry
deriving Repr, DecidableEq

/-- The per-network body of `_setupWifiHandler` (clientManager.js lines
396-407): refresh `lastSeen` of the first (SSID,BSSID) match, or push a new
entry with `firstSeen = lastSeen = now`. -/
def wifiUpsertOne (now : Nat) (log : List WifiLogEntry) (w : WifiNet) :
    List WifiLogEntry :=
  if log.any (wifiMatches w) then
    updateFirst (wifiMatches w) (fun e => { e with lastSeen := now }) log
  else log ++ [{ SSID := w.SSID, BSSID := w.BSSID, firstSeen := now, lastSeen := now }]

/-- `_setupWifiHandler` (clientManager.js lines 384-414): bail out on a
missing or empty network list; else replace the `wifiNow` snapshot wholesale
(`remove()` then `assign`, modelled from the spec as storing the incoming
list) and upsert each network into `wifiLog`. -/
def setupWifiHandler (now : Nat) (st : WifiState) (networks : List WifiNet) :
    WifiState :=
  if networks.isEmpty then st
  else
    { wifiNow := networks,
      wifiLog := networks.foldl (wifiUpsertOne now) st.wifiLog }

theorem updateFirst_length {α : Type} (p : α → Bool) (f : α → α)
    (l : List α) : (updateFirst p f l).length = l.length := by
  induction l with
  | nil => rfl
  | cons x xs ih =>
    unfold updateFirst
    by_cases hx : p x = true
    · simp [hx]
    · rw [Bool.not_eq_true] at hx
      simp [hx, ih]

/-- C4: ingesting a non-empty network list replaces the current-scan snapshot
wholesale; each upsert step refreshes `lastSeen` of the first matching
(SSID,BSSID) entry without changing the log's length when the pair is already
present, appends exactly one entry with `firstSeen = lastSeen = now` when it
is not, and the handler's log is the fold of these steps over the incoming
list. -/
theorem c4_wifi_upsert (now : Nat) (st : WifiState) (networks : List WifiNet)
    (hne : networks ≠ []) :
    (setupWifiHandler now st networks).wifiNow = networks ∧
      (setupWifiHandler now st networks).wifiLog =
        networks.foldl (wifiUpsertOne now) st.wifiLog ∧
      (∀ (log : List WifiLogEntry) (w : WifiNet),
        log.any (wifiMatches w) = true →
          wifiUpsertOne now log w =
              updateFirst (wifiMatches w) (fun e => { e with lastSeen := now }) log ∧
            (wifiUpsertOne now log w).length = log.length) ∧
      (∀ (log : List WifiLogEntry) (w : WifiNet),
        log.any (wifiMatches w) = false →
          wifiUpsertOne now log w =
            log ++ [{ SSID := w.SSID, BSSID := w.BSSID,
                      firstSeen := now, lastSeen := now }]) := by
  have hempty : networks.isEmpty = false := by
    cases networks with
    | nil => exact absurd rfl hne
    | cons x xs => rfl
  refine ⟨?_, ?_, ?_, ?_⟩
  · simp [setupWifiHandler, hempty]
  · simp [setupWifiHandler, hempty]
  · intro log w hf
    refine ⟨by simp [wifiUpsertOne, hf], ?_⟩
    rw [wifiUpsertOne, if_pos hf]
    exact updateFirst_length _ _ log
  · intro log w hf
    simp [wifiUpsertOne, hf]

def c4SampleState : WifiState :=
  { wifiNow := [],
    wifiLog := [{ SSID := "old", BSSID := "aa", firstSeen := 1, lastSeen := 1 }] }

theorem c4_witness :
    (setupWifiHandler 5 c4SampleState [WifiNet.mk "n" "bb"]).wifiNow =
        [WifiNet.mk "n" "bb"] ∧
      wifiUpsertOne 5 c4SampleState.wifiLog (WifiNet.mk "old" "aa") =
        updateFirst (wifiMatches (WifiNet.mk "old" "aa"))
          (fun e => { e with lastSeen := 5 }) c4SampleState.wifiLog ∧
      wifiUpsertOne 5 c4SampleState.wifiLog (WifiNet.mk "n" "bb") =
        c4SampleState.wifiLog ++
          [{ SSID := "n", BSSID := "bb", firstSeen := 5, lastSeen := 5 }] :=
  have h := c4_wifi_upsert 5 c4SampleState [WifiNet.mk "n" "bb"] (by decide)
  ⟨h.1,
   (h.2.2.1 c4SampleState.wifiLog (WifiNet.mk "old" "aa") (by decide)).1,
   h.2.2.2 c4SampleState.wifiLog (WifiNet.mk "n" "bb") (by decide)⟩

/-- A `maindb` client record (`_updateOrCreateClient`), `dynamicData` kept
opaque as a string. -/
structure MainClient where
  clientID : String
  firstSeen : Nat
  lastSeen : Nat
  isOnline : Bool
  dynamicData : String
deriving Repr, DecidableEq

/-- The connection-lifecycle slice of the manager: the `maindb` client list,
the keys of `clientConnections`, the `ignoreDisconnects` map and the keys of
`gpsPollers`. -/
structure MgrState where
  clients : List MainClient
  connections : List String
  ignoreDisconnects : List (String × Bool)
  gpsPollers : List String
deriving Repr, DecidableEq

/-- `Map.prototype.get` on `ignoreDisconnects`. -/
def lookupFlag (m : List (String × Bool)) (k : String) : Option Bool :=
  (m.find? (fun e => e.1 == k)).map (·.2)

/-- `Map.prototype.set`: overwrite the entry for `k`, or append one. -/
def setFlag : List (String × Bool) → String → Bool → List (String × Bool)
  | [], k, v => [(k, v)]
  | e :: m, k, v => if e.1 == k then (k, v) :: m else e :: setFlag m k v

/-- `Map.prototype.delete`. -/
def delFlag (m : List (String × Bool)) (k : String) : List (String × Bool) :=
  m.filter (fun e => !(e.1 == k))

/-- `Map.prototype.set` on a key set (`clientConnections`, `gpsPollers`). -/
def addKey (l : List String) (k : String) : List String :=
  if k ∈ l then l else l ++ [k]

/-- `Map.prototype.delete` on a key set. -/
def removeKey (l : List String) (k : String) : List String :=
  l.filter (fun x => !(x == k))

/-- `_updateOrCreateClient` (clientManager.js lines 48-67). -/
def updateOrCreateClient (clients : List MainClient) (clientID : String)
    (now : Nat) (clientData : String) : List MainClient :=
  if clients.any (fun c => c.clientID == clientID) then
    updateFirst (fun c => c.clientID == clientID)
      (fun c =>
        { c with lastSeen := now, isOnline := true, dynamicData := clientData })
      clients
  else
    clients ++
      [{ clientID := clientID, firstSeen := now, lastSeen := now,
         isOnline := true, dynamicData := clientData }]

/-- `clientConnect` (clientManager.js lines 29-42): register the connection,
set the ignore-disconnect flag to `ignoreDisconnects.has(clientID)`, and
update or create the agent record.  The listener setup it triggers (queue
replay, poll start, telemetry handlers) is modelled by the other state
slices. -/
def clientConnect (st : MgrState) (clientID : String) (clientData : String)
    (now : Nat) : MgrState :=
  let shouldIgnore := (lookupFlag st.ignoreDisconnects clientID).isSome
  { st with
      connections := addKey st.connections clientID,
      ignoreDisconnects := setFlag st.ignoreDisconnects clientID shouldIgnore,
      clients := updateOrCreateClient st.clients clientID now clientData }

/-- `clientDisconnect` (clientManager.js lines 73-97): when the stored ignore
flag is truthy, consume the flag and return early; otherwise stamp the agent
offline, drop the connection, stop the poll timer and drop the flag entry. -/
def clientDisconnect (st : MgrState) (clientID : String) (now : Nat) :
    MgrState :=
  let shouldIgnore := (lookupFlag st.ignoreDisconnects clientID).getD false
  if shouldIgnore then
    { st with ignoreDisconnects := delFlag st.ignoreDisconnects clientID }
  else
    { st with
        clients := updateFirst (fun c => c.clientID == clientID)
          (fun c => { c with lastSeen := now, isOnline := false }) st.clients,
        connections := removeKey st.connections clientID,
        gpsPollers := removeKey st.gpsPollers clientID,
        ignoreDisconnects := delFlag st.ignoreDisconnects clientID }

def mgr0 : MgrState :=
  { clients := [], connections := [], ignoreDisconnects := [], gpsPollers := [] }

/-- C6 counterexample: from a clean state, `clientConnect` stores
`ignoreDisconnects.has(id)` — `false` — as the flag, so the very first
disconnect after the connect is *not* suppressed: the agent is marked
offline and `lastSeen` is restamped by that disconnect. -/
theorem c6_counterexample :
    ((clientDisconnect (clientConnect mgr0 "a" "meta" 1) "a" 2).clients.find?
        (fun c => c.clientID == "a")).map (fun c => (c.isOnline, c.lastSeen)) =
      some (false, 2) := by
  decide

theorem lookupFlag_setFlag (m : List (String × Bool)) (k : String) (v : Bool) :
    lookupFlag (setFlag m k v) k = some v := by
  induction m with
  | nil => simp [setFlag, lookupFlag]
  | cons e m ih =>
    by_cases he : e.1 == k
    · simp [setFlag, he, lookupFlag]
    · rw [Bool.not_eq_true] at he
      simp only [setFlag, he, Bool.false_eq_true, if_false]
      simp only [lookupFlag, List.find?_cons, he]
      exact ih

/-- C6 amended: `clientConnect` sets the one-shot flag to
`ignoreDisconnects.has(id)` — `true` exactly when an unconsumed entry from a
previous connect is still present (a connect superseding a live session),
`false` on a connect from a clean state.  A disconnect finding the flag
`true` is suppressed (agent record, connection and poll timer untouched, flag
consumed); a disconnect finding it `false` or absent proceeds normally
(offline, `lastSeen` stamped, connection and poll timer removed, flag entry
dropped) — in particular the first disconnect after a clean connect, and a
second disconnect after a suppressed one, both proceed normally. -/
theorem c6_ignore_disconnect_amended (st : MgrState)
    (clientID clientData : String) (t1 t2 : Nat) :
    (lookupFlag st.ignoreDisconnects clientID ≠ none →
      lookupFlag (clientConnect st clientID clientData t1).ignoreDisconnects
        clientID = some true) ∧
    (lookupFlag st.ignoreDisconnects clientID = none →
      lookupFlag (clientConnect st clientID clientData t1).ignoreDisconnects
        clientID = some false) ∧
    (lookupFlag st.ignoreDisconnects clientID = some true →
      clientDisconnect st clientID t2 =
        { st with ignoreDisconnects := delFlag st.ignoreDisconnects clientID }) ∧
    (lookupFlag st.ignoreDisconnects clientID ≠ some true →
      clientDisconnect st clientID t2 =
        { st with
            clients := updateFirst (fun c => c.clientID == clientID)
              (fun c => { c with lastSeen := t2, isOnline := false }) st.clients,
            connections := removeKey st.connections clientID,
            gpsPollers := removeKey st.gpsPollers clientID,
            ignoreDisconnects := delFlag st.ignoreDisconnects clientID }) := by
  refine ⟨?_, ?_, ?_, ?_⟩
  · intro hne
    show lookupFlag (setFlag st.ignoreDisconnects clientID
      (lookupFlag st.ignoreDisconnects clientID).isSome) clientID = some true
    rw [lookupFlag_setFlag, Option.isSome_iff_ne_none.mpr hne]
  · intro hnone
    show lookupFlag (setFlag st.ignoreDisconnects clientID
      (lookupFlag st.ignoreDisconnects clientID).isSome) clientID = some false
    rw [lookupFlag_setFlag, hnone]
    rfl
  · intro htrue
    simp [clientDisconnect, htrue]
  · intro hne
    cases hlf : lookupFlag st.ignoreDisconnects clientID with
    | none => simp [clientDisconnect, hlf]
    | some b =>
      cases b with
      | false => simp [clientDisconnect, hlf]
      | true => exact absurd hlf hne

def c6StA : MgrState := clientConnect mgr0 "a" "m" 1

def c6StB : MgrState := clientConnect c6StA "a" "m" 2

theorem c6_witness :
    lookupFlag c6StB.ignoreDisconnects "a" = some true ∧
      clientDisconnect c6StB "a" 3 =
        { c6StB with ignoreDisconnects := delFlag c6StB.ignoreDisconnects "a" } :=
  ⟨(c6_ignore_disconnect_amended c6StA "a" "m" 2 0).1 (by decide),
   (c6_ignore_disconnect_amended c6StB "a" "m" 0 3).2.2.1 (by decide)⟩

/-- Modelled from the spec: the store's `assign` with a whole collection as
the patch stores the incoming value (snapshot-replace semantics of §4.3 for
file listing / installed apps / permissions). -/
def storeAssignList {α : Type} (_cur incoming : List α) : List α := incoming

/-- Modelled from the spec: `remove()` with no predicate clears the
collection. -/
def storeRemoveAll {α : Type} (_cur : List α) : List α := []

/-- `_setupAppsHandler` (clientManager.js lines 427-436):
`client.get('apps').assign(data.apps).write()`; app entries kept opaque as
strings. -/
def setupAppsHandler (apps incoming : List String) : List String :=
  storeAssignList apps incoming

/-- `_handleFileList` (clientManager.js lines 194-200): on a non-empty list,
clear `currentFolder` and store the incoming listing. -/
def handleFileList (currentFolder incoming : List String) : List String :=
  if incoming.isEmpty then currentFolder
  else storeAssignList (storeRemoveAll currentFolder) incoming

/-- `getClientDataByPage(_, 'apps')` returns the stored snapshot. -/
def getAppsPage (apps : List String) : List String := apps

/-- C7: ingesting two different non-empty installed-app lists in a row leaves
exactly the second list retrievable as the snapshot; nothing of the first
list survives unless it is also in the second. -/
theorem c7_apps_snapshot_replace (apps l1 l2 : List String)
    (h1 : l1 ≠ []) (h2 : l2 ≠ []) (h12 : l1 ≠ l2) :
    getAppsPage (setupAppsHandler (setupAppsHandler apps l1) l2) = l2 ∧
      ∀ a ∈ l1, a ∉ l2 →
        a ∉ getAppsPage (setupAppsHandler (setupAppsHandler apps l1) l2) :=
  ⟨rfl, fun _ _ ha2 => ha2⟩

theorem c7_witness :
    getAppsPage (setupAppsHandler (setupAppsHandler [] ["a", "b"]) ["c"]) =
      ["c"] :=
  (c7_apps_snapshot_replace [] ["a", "b"] ["c"] (by decide) (by decide)
    (by decide)).1

/-- The GPS slice for one agent: the persisted `GPSSettings.updateFrequency`
(seconds, a JS number — an integer here) and the running interval timer, if
any, carrying its period in milliseconds. -/
structure GpsState where
  updateFrequency : Int
  poller : Option Int
deriving Repr, DecidableEq

/-- `gpsPoll` (clientManager.js lines 659-677): clear any running poller;
restart it at `updateFrequency * 1000` ms when the persisted frequency is
positive. -/
def gpsPoll (st : GpsState) : GpsState :=
  let cleared : GpsState := { st with poller := none }
  if cleared.updateFrequency > 0 then
    { cleared with poller := some (cleared.updateFrequency * 1000) }
  else cleared

/-- `setGpsPollSpeed` (clientManager.js lines 685-694): reject
`pollEvery < 30 && pollEvery !== 0`, else persist the frequency and re-run
`gpsPoll`. -/
def setGpsPollSpeed (st : GpsState) (pollEvery : Int) :
    Option String × GpsState :=
  if pollEvery < 30 ∧ pollEvery ≠ 0 then
    (some "Polling interval must be at least 30 seconds or 0 to disable", st)
  else (none, gpsPoll { st with updateFrequency := pollEvery })

/-- C8: `setGpsPollSpeed` rejects every `0 < s < 30` leaving the state (the
persisted config and any running timer) unchanged; `s = 0` persists `0` and
cancels the poller; `s ≥ 30` persists `s` and restarts the poller at period
`s` seconds (`s * 1000` ms). -/
theorem c8_poll_interval (st : GpsState) (s : Int) :
    (0 < s → s < 30 →
      setGpsPollSpeed st s =
        (some "Polling interval must be at least 30 seconds or 0 to disable",
         st)) ∧
      setGpsPollSpeed st 0 = (none, { updateFrequency := 0, poller := none }) ∧
      (30 ≤ s →
        setGpsPollSpeed st s =
          (none, { updateFrequency := s, poller := some (s * 1000) })) := by
  refine ⟨?_, ?_, ?_⟩
  · intro h0 h30
    rw [setGpsPollSpeed, if_pos ⟨h30, by omega⟩]
  · rw [setGpsPollSpeed, if_neg (by omega), gpsPoll]
    norm_num
  · intro h30
    rw [setGpsPollSpeed, if_neg (by omega), gpsPoll]
    simp only []
    rw [if_pos (by show (0 : Int) < s; omega)]

def c8SampleState : GpsState := { updateFrequency := 60, poller := some 60000 }

theorem c8_witness :
    setGpsPollSpeed c8SampleState 15 =
      (some "Polling interval must be at least 30 seconds or 0 to disable",
       c8SampleState) ∧
      setGpsPollSpeed c8SampleState 0 =
        (none, { updateFrequency := 0, poller := none }) ∧
      setGpsPollSpeed c8SampleState 30 =
        (none, { updateFrequency := 30, poller := some 30000 }) :=
  ⟨(c8_poll_interval c8SampleState 15).1 (by decide) (by decide),
   (c8_poll_interval c8SampleState 0).2.1,
   (c8_poll_interval c8SampleState 30).2.2 (by decide)⟩

/-- `getClientList` (clientManager.js lines 454-456). -/
def getClientList (clients : List MainClient) : List MainClient := clients

/-- `getClientListOnline` (clientManager.js lines 462-464). -/
def getClientListOnline (clients : List MainClient) : List MainClient :=
  (getClientList clients).filter (fun c => c.isOnline)

/-- `getClientListOffline` (clientManager.js lines 470-472). -/
def getClientListOffline (clients : List MainClient) : List MainClient :=
  (getClientList clients).filter (fun c => !c.isOnline)

/-- The record returned by `getStats` (clientManager.js lines 749-756). -/
structure Stats where
  totalClients : Nat
  onlineClients : Nat
  offlineClients : Nat
  activePollers : Nat
deriving Repr, DecidableEq

/-- `getStats`. -/
def getStats (clients : List MainClient) (activePollers : Nat) : Stats :=
  { totalClients := (getClientList clients).length,
    onlineClients := (getClientListOnline clients).length,
    offlineClients := (getClientListOffline clients).length,
    activePollers := activePollers }

/-- C10: the online and offline listings partition the client list on the
boolean `isOnline`, so `getStats` always reports
`totalClients = onlineClients + offlineClients`. -/
theorem c10_stats_partition (clients : List MainClient)
    (activePollers : Nat) :
    (getStats clients activePollers).totalClients =
      (getStats clients activePollers).onlineClients +
        (getStats clients activePollers).offlineClients := by
  simp only [getStats, getClientList, getClientListOnline, getClientListOffline]
  induction clients with
  | nil => rfl
  | cons c cs ih =>
    cases hc : c.isOnline with
    | false =>
      simp [List.filter_cons, hc]
      omega
    | true =>
      simp [List.filter_cons, hc]
      omega
